import Mathlib

/-!
Verification development for the `meta-ads-library-cli` repository
(a Go command-line client for the Meta Ad Library API).

The development shallowly embeds the core of the program:

* `internal/api` — the HTTP client: `checkRateLimit`, `doRequest`,
  `buildURL`, and the paginating `Client.SearchAds`;
* `cmd` — the `search` command's validation and parameter encoding
  (`runSearch`, `toJSONArray`), token resolution (`resolveToken`) and
  the `auth set-token` handler (`runAuthSetToken`).

Go's `url.Values` (`map[string][]string`) is modelled as an association
list with Go's `Get`/`Set` observational semantics.  Because Go maps are
reference values, `SearchAds` — which clones the caller's map before
mutating it — is embedded against an explicit heap of allocated maps, so
that the frame property "the caller's map is not mutated" is a genuine
statement about which references the code writes.  Network responses are
supplied as an explicit list consumed in server order; JSON parsing of a
response body is abstracted by attaching the possible parse results to
the body value.
-/

namespace MetaAdsCli

/-! ## `url.Values` (Go `map[string][]string`), observational model -/

/-- Association-list model of Go's `url.Values`. -/
def Values : Type := List (String × List String)

instance : DecidableEq Values := by unfold Values; infer_instance

instance : Append Values := ⟨fun a b => List.append a b⟩

/-- Go `url.Values.Get`: first value for the key, `""` when absent. -/
def Values.get (m : Values) (k : String) : String :=
  match m.find? (fun e => e.1 = k) with
  | some e => e.2.headD ""
  | none => ""

/-- Go `url.Values.Set`: `m[key] = []string{value}` — replaces any
binding of the key by the single value. -/
def Values.set (m : Values) (k v : String) : Values :=
  m.filter (fun e => e.1 ≠ k) ++ [(k, [v])]

/-- Iterated `q.Set(k, vs[0])`, as in `buildURL`'s merge loops
(`for k, vs := range m { q.Set(k, vs[0]) }`). -/
def Values.setAll (q : Values) (m : Values) : Values :=
  m.foldl (fun acc e => acc.set e.1 (e.2.headD "")) q

theorem Values.get_set_self (m : Values) (k v : String) :
    (m.set k v).get k = v := by
  unfold Values.get Values.set
  rw [List.find?_append]
  have hnone : (m.filter (fun e => e.1 ≠ k)).find? (fun e => e.1 = k) = none := by
    rw [List.find?_eq_none]
    intro e he
    have := List.of_mem_filter he
    simp at this
    simp [this]
  rw [hnone]
  simp [List.find?]

theorem Values.get_set_ne (m : Values) (k k' v : String) (h : k' ≠ k) :
    (m.set k v).get k' = m.get k' := by
  unfold Values.get Values.set
  rw [List.find?_append]
  have htail : ([(k, [v])] : List (String × List String)).find? (fun e => e.1 = k') = none := by
    simp [List.find?, h.symm]
  have hfilter : (m.filter (fun e => e.1 ≠ k)).find? (fun e => e.1 = k') =
      m.find? (fun e => e.1 = k') := by
    induction m with
    | nil => rfl
    | cons e rest ih =>
      by_cases hk : e.1 = k
      · have hek' : ¬ e.1 = k' := by rw [hk]; exact fun hc => h hc.symm
        rw [List.filter_cons_of_neg (by simpa using hk), ih,
          List.find?_cons_of_neg _ (by simpa using hek')]
      · by_cases hk' : e.1 = k'
        · rw [List.filter_cons_of_pos (by simpa using hk),
            List.find?_cons_of_pos _ (by simpa using hk'),
            List.find?_cons_of_pos _ (by simpa using hk')]
        · rw [List.filter_cons_of_pos (by simpa using hk),
            List.find?_cons_of_neg _ (by simpa using hk'), ih,
            List.find?_cons_of_neg _ (by simpa using hk')]
  rw [hfilter]
  cases hfind : m.find? (fun e => e.1 = k') with
  | some e => simp
  | none => simp [htail]

theorem Values.get_setAll (q m : Values) (k : String) :
    (q.setAll m).get k =
      match (m.filter (fun e => e.1 = k)).getLast? with
      | some e => e.2.headD ""
      | none => q.get k := by
  induction m generalizing q with
  | nil => rfl
  | cons e rest ih =>
    show ((q.set e.1 (e.2.headD "")).setAll rest).get k = _
    rw [ih]
    by_cases hk : e.1 = k
    · subst hk
      rw [List.filter_cons_of_pos (by simp)]
      cases hfr : rest.filter (fun x => x.1 = e.1) with
      | nil => simpa using Values.get_set_self q e.1 (e.2.headD "")
      | cons x l =>
        rw [List.getLast?_cons_cons]
        have hsome : ∃ y, (x :: l).getLast? = some y := by
          cases hy : (x :: l).getLast? with
          | some y => exact ⟨y, rfl⟩
          | none => simp [List.getLast?_eq_none_iff] at hy
        obtain ⟨y, hy⟩ := hsome
        simp [hy]
    · have hne : k ≠ e.1 := fun hc => hk hc.symm
      rw [List.filter_cons_of_neg (by simpa using hk)]
      cases hfr : rest.filter (fun x => x.1 = k) with
      | nil => simpa using Values.get_set_ne q e.1 k (e.2.headD "") hne
      | cons x l =>
        have hsome : ∃ y, (x :: l).getLast? = some y := by
          cases hy : (x :: l).getLast? with
          | some y => exact ⟨y, rfl⟩
          | none => simp [List.getLast?_eq_none_iff] at hy
        obtain ⟨y, hy⟩ := hsome
        simp [hy]

/-! ## `internal/api` — error and response types -/

/-- `MetaError` from `internal/api`: a Meta API error payload. -/
structure MetaError where
  code : Int
  message : String
  typ : String
  subcode : Int
deriving Repr, DecidableEq

/-- `X-App-Usage` header contents as consumed by `checkRateLimit`:
either unparsable JSON (ignored) or the parsed triple of sub-metrics.
A missing or empty header is `none` at the use site. -/
inductive UsageHeader where
  /-- `json.Unmarshal` of the header value fails. -/
  | unparsable
  /-- parsed `{call_count, total_cputime, total_time}`. -/
  | parsed (call_count total_cputime total_time : Int)
deriving Repr, DecidableEq

/-- `checkRateLimit` (part_003, lines 43–63): reads `X-App-Usage` and
returns the warnings printed to stderr.  The source sets
`pct := parsed.CallCount`, raises it to `parsed.TotalTime` when that is
larger, and warns once when `pct > 75`.  `TotalCPUTime` is parsed but
never consulted. -/
def checkRateLimit (usage : Option UsageHeader) : List String :=
  match usage with
  | none => []
  | some .unparsable => []
  | some (.parsed call_count _total_cputime total_time) =>
    let pct := call_count
    let pct := if total_time > pct then total_time else pct
    if pct > 75 then
      ["warning: rate limit " ++ toString pct ++ "% used — slow down to avoid HTTP 613"]
    else []

/-- Structural model of a parsed URL: the non-query part (scheme, host,
path) and the query parameters. -/
structure URLModel where
  path : String
  query : Values

/-- `Paging` with `Next` as an optional locator (`none` models the Go
empty string / absent field).  A locator is a complete request target,
modelled structurally as a URL. -/
structure PagingModel where
  next : Option URLModel

/-- The page envelope: `{ data: [...], paging?: { next?: ... } }`. -/
structure PageModel where
  data : List String
  paging : Option PagingModel

/-- A response body with the outcomes of the two `json.Unmarshal`
attempts made by the client attached:

* `errorPayload = some e` iff unmarshalling into the
  `struct { Error *MetaError }` succeeds with a non-nil `Error`;
* `page = some pg` iff unmarshalling into the page envelope
  (`data` + `paging`) succeeds;
* `raw` is the raw body text (used in HTTP-status error messages). -/
structure BodyModel where
  errorPayload : Option MetaError
  page : Option PageModel
  raw : String

/-- What the transport produced for one request. -/
inductive HTTPResult where
  /-- `httpClient.Do` failed: no response at all. -/
  | transportErr (msg : String)
  /-- A response arrived but reading its body failed (`io.ReadAll`);
  headers were still available to `checkRateLimit`. -/
  | readErr (usage : Option UsageHeader) (msg : String)
  /-- A response with headers, status code and body. -/
  | response (usage : Option UsageHeader) (status : Nat) (body : BodyModel)

/-- Errors surfaced by `doRequest` and `SearchAds`. -/
inductive ClientError where
  /-- request or body-read failure (`request failed: …` / `reading response: …`). -/
  | transport (msg : String)
  /-- a non-nil embedded `error` payload, returned as the error itself. -/
  | meta (e : MetaError)
  /-- `HTTP %d: %s` for status ≥ 400 with no embedded error payload. -/
  | http (status : Nat) (rawBody : String)
  /-- `parsing page: …` — the body did not unmarshal as a page envelope. -/
  | parsePage

/-- `Client.doRequest` (part_003, lines 66–92).  Returns the stderr
warnings from `checkRateLimit` together with the result.  The source
order is: run `checkRateLimit` on the headers, read the body, check the
embedded error payload, then the HTTP status. -/
def doRequest (r : HTTPResult) : List String × Except ClientError BodyModel :=
  match r with
  | .transportErr msg => ([], .error (.transport ("request failed: " ++ msg)))
  | .readErr usage msg =>
    (checkRateLimit usage, .error (.transport ("reading response: " ++ msg)))
  | .response usage status body =>
    (checkRateLimit usage,
      match body.errorPayload with
      | some e => .error (.meta e)
      | none =>
        if status ≥ 400 then .error (.http status body.raw)
        else .ok body)

/-! ## `internal/api` — URL construction and the pagination engine -/

/-- `baseURL` constant. -/
def baseURL : String := "https://graph.facebook.com/v23.0"

/-- `adLibPath` constant. -/
def adLibPath : String := "/ads_archive"

/-- `Client.baseParams`: common parameters added to every request. -/
def baseParams (token : String) : Values :=
  Values.set [] "access_token" token

/-- The `path` argument of `Client.Get` / `buildURL`: either a relative
path (resolved against `baseURL`, no query of its own) or a complete
`http…` URL (a `paging.next` locator, used as-is). -/
inductive Target where
  | relative (p : String)
  | absolute (u : URLModel)

/-- `buildURL` (part_003, lines 163–185): parse the target, then
`q.Set(k, vs[0])` for every base entry and every extra entry over the
target's own query. -/
def buildURL (t : Target) (base extra : Values) : URLModel :=
  let u : URLModel :=
    match t with
    | .relative p => { path := baseURL ++ p, query := [] }
    | .absolute u => u
  { path := u.path, query := (u.query.setAll base).setAll extra }

/-- Heap of allocated `url.Values` maps; a map reference is an index.
Go maps are reference values, so `SearchAds`'s clone-then-mutate
behaviour is embedded against this heap. -/
abbrev Heap : Type := List Values

/-- Dereference a map. -/
def Heap.read (h : Heap) (r : Nat) : Values := h.getD r []

/-- Overwrite the map a reference points to. -/
def Heap.write (h : Heap) (r : Nat) (v : Values) : Heap := h.set r v

/-- Allocate a fresh map, returning the extended heap and its reference. -/
def Heap.alloc (h : Heap) (v : Values) : Heap × Nat := (h ++ [v], h.length)

/-- Result of a `SearchAds` run: the returned value, the final heap and
the trace of issued request URLs, in order. -/
structure SAOut where
  result : Except ClientError (List String)
  heap : Heap
  requests : List URLModel

/-- The `for { … }` loop of `Client.SearchAds` (part_003, lines
127–156).  `srv` is the list of transport results the server produces,
consumed one per iteration; running out of responses is a transport
failure.  Each iteration issues `c.Get(currentPath, p)` — i.e. builds
`buildURL(currentPath, baseParams, p)` and records it — then follows the
source: parse the page, append its records, stop when `limit > 0` and
enough records accumulated (truncating to `limit`), stop when paging is
absent or has no next locator, and otherwise continue with
`currentPath = paging.Next` and `p = url.Values{}` (a freshly allocated
empty map). -/
def searchAdsLoop (srv : List HTTPResult) (h : Heap) (pRef : Nat) (tgt : Target)
    (token : String) (limit : Int) (all : List String) : SAOut :=
  let req := buildURL tgt (baseParams token) (h.read pRef)
  match srv with
  | [] => ⟨.error (.transport "request failed: no response"), h, [req]⟩
  | r :: rest =>
    match (doRequest r).2 with
    | .error e => ⟨.error e, h, [req]⟩
    | .ok body =>
      match body.page with
      | none => ⟨.error .parsePage, h, [req]⟩
      | some page =>
        let all' := all ++ page.data
        if limit > 0 ∧ (all'.length : Int) ≥ limit then
          ⟨.ok (all'.take limit.toNat), h, [req]⟩
        else
          match page.paging with
          | none => ⟨.ok all', h, [req]⟩
          | some paging =>
            match paging.next with
            | none => ⟨.ok all', h, [req]⟩
            | some nextURL =>
              let (h', pRef') := h.alloc []
              let out := searchAdsLoop rest h' pRef' (.absolute nextURL) token limit all'
              ⟨out.result, out.heap, req :: out.requests⟩

/-- `Client.SearchAds` (part_003, lines 111–159).  Clones the caller's
map into a freshly allocated map (`p := url.Values{}` plus the copy
loop), injects the default batch size `100` when the clone has no
`limit` entry, and runs the pagination loop starting at `adLibPath`. -/
def SearchAds (srv : List HTTPResult) (token : String) (h : Heap) (paramsRef : Nat)
    (limit : Int) : SAOut :=
  let (h₁, pRef) := h.alloc (h.read paramsRef)
  let h₂ :=
    if (h₁.read pRef).get "limit" = "" then
      h₁.write pRef ((h₁.read pRef).set "limit" "100")
    else h₁
  searchAdsLoop srv h₂ pRef (.relative adLibPath) token limit []

/-! ## `cmd/search.go` — query building and validation -/

/-- `strconv.Quote` at the interface used by `toJSONArray`: wrap in
double quotes, escaping the quote, the backslash and the common control
characters; printable characters are emitted verbatim. -/
def goQuoteChar (c : Char) : List Char :=
  if c = '"' then ['\\', '"']
  else if c = '\\' then ['\\', '\\']
  else if c = '\n' then ['\\', 'n']
  else if c = '\t' then ['\\', 't']
  else if c = '\r' then ['\\', 'r']
  else [c]

/-- `strconv.Quote s` for printable input. -/
def goQuote (s : String) : String :=
  "\"" ++ String.mk ((s.data.map goQuoteChar).flatten) ++ "\""

/-- `toJSONArray` (cmd/search.go, lines 202–208): each element quoted
with `strconv.Quote`, joined with `","`, wrapped in brackets. -/
def toJSONArray (ss : List String) : String :=
  "[" ++ String.intercalate "," (ss.map goQuote) ++ "]"

/-- JSON unescaping for the escapes produced inside string literals. -/
def jsonEscChar (c : Char) : Option Char :=
  if c = '"' then some '"'
  else if c = '\\' then some '\\'
  else if c = '/' then some '/'
  else if c = 'n' then some '\n'
  else if c = 't' then some '\t'
  else if c = 'r' then some '\r'
  else none

/-- Parse the remainder of a JSON string literal (the opening quote
already consumed); returns the decoded characters and the rest of the
input after the closing quote. -/
def jsonParseStringBody : List Char → Option (List Char × List Char)
  | [] => none
  | '"' :: rest => some ([], rest)
  | '\\' :: c :: rest => do
    let e ← jsonEscChar c
    let (s, r) ← jsonParseStringBody rest
    pure (e :: s, r)
  | c :: rest => do
    let (s, r) ← jsonParseStringBody rest
    pure (c :: s, r)

/-- Skip JSON whitespace. -/
def jsonSkipWS : List Char → List Char
  | [] => []
  | c :: rest =>
    if c = ' ' ∨ c = '\n' ∨ c = '\t' ∨ c = '\r' then jsonSkipWS rest
    else c :: rest

/-- Parse a non-empty comma-separated sequence of JSON string literals
followed by the closing bracket. -/
def jsonParseElems (fuel : Nat) (cs : List Char) : Option (List String × List Char) :=
  match fuel with
  | 0 => none
  | fuel + 1 =>
    match jsonSkipWS cs with
    | '"' :: rest => do
      let (s, r) ← jsonParseStringBody rest
      match jsonSkipWS r with
      | ',' :: r2 => do
        let (ss, r3) ← jsonParseElems fuel r2
        pure (String.mk s :: ss, r3)
      | ']' :: r2 => pure ([String.mk s], r2)
      | _ => none
    | _ => none

/-- Decode a JSON array of strings — the JSON reading of the parameter
value produced by the Query Builder. -/
def jsonParseStringArray (s : String) : Option (List String) :=
  match jsonSkipWS s.data with
  | '[' :: rest =>
    match jsonSkipWS rest with
    | ']' :: r2 => if jsonSkipWS r2 = [] then some [] else none
    | _ =>
      match jsonParseElems (rest.length + 1) rest with
      | some (ss, r) => if jsonSkipWS r = [] then some ss else none
      | none => none
  | _ => none

/-- The search command's inputs (the flag variables of cmd/search.go). -/
structure SearchSpec where
  query : String
  countries : List String
  pageIDs : List String
  adType : String
  status : String
  dateMin : String
  dateMax : String
  platforms : List String
  languages : List String
  limit : Int
  fields : String
  mediaType : String

/-- Outcome of `runSearch` up to the point where the network client is
invoked: either a validation error (returned before any request) or the
parameter map and limit handed to `Client.SearchAds`. -/
inductive SearchOutcome where
  | validationError (msg : String)
  | proceed (params : Values) (limit : Int)

/-- `runSearch` (cmd/search.go, lines 82–126) up to the `SearchAds`
call: the two validation checks in source order, then the parameter
construction. -/
def runSearchBuild (s : SearchSpec) : SearchOutcome :=
  if s.countries.length = 0 then
    .validationError "at least one --country is required (e.g. --country US)"
  else if s.query = "" ∧ s.pageIDs.length = 0 then
    .validationError "at least one of --query or --page-id is required"
  else
    let params : Values := []
    let params := params.set "fields" s.fields
    let params := params.set "ad_type" s.adType
    let params := params.set "ad_active_status" s.status
    let params := params.set "ad_reached_countries" (toJSONArray s.countries)
    let params := if s.query ≠ "" then params.set "search_terms" s.query else params
    let params :=
      if s.pageIDs.length > 0 then params.set "search_page_ids" (toJSONArray s.pageIDs)
      else params
    let params := if s.dateMin ≠ "" then params.set "ad_delivery_date_min" s.dateMin else params
    let params := if s.dateMax ≠ "" then params.set "ad_delivery_date_max" s.dateMax else params
    let params :=
      if s.platforms.length > 0 then params.set "publisher_platforms" (toJSONArray s.platforms)
      else params
    let params :=
      if s.languages.length > 0 then params.set "languages" (toJSONArray s.languages)
      else params
    let params :=
      if s.mediaType ≠ "" then params.set "ad_creative_media_type" s.mediaType
      else params
    .proceed params s.limit

/-- Number of page requests `runSearch` issues against a given server:
zero when validation fails, otherwise the requests traced by
`SearchAds` run on the built parameter map. -/
def runSearchNetworkCalls (s : SearchSpec) (srv : List HTTPResult) (token : String) : Nat :=
  match runSearchBuild s with
  | .validationError _ => 0
  | .proceed params limit => (SearchAds srv token [params] 0 limit).requests.length

/-! ## `cmd` root — token resolution (part_001, lines 190–241) -/

/-- The fields of the local config record consumed by `resolveToken`:
the stored token and the expiry bookkeeping answers
(`cfg.IsExpired()`, `cfg.DaysUntilExpiry()`). -/
structure StoredConfig where
  accessToken : String
  isExpired : Bool
  daysUntilExpiry : Int

/-- Failures of `resolveToken`. -/
inductive ResolveError where
  | loadFailed (msg : String)
  | sharedReadFailed (msg : String)
  | unauthenticated (msg : String)
deriving Repr, DecidableEq

/-- The final error message of `resolveToken`, naming both remediation
paths (shared login and local set-token). -/
def unauthenticatedMsg : String :=
  "not authenticated — run: meta-auth login  (shared)\nor: meta-adlib auth set-token <token>  (local only)"

/-- `warnOwnExpiry` (part_001, lines 220–231): stderr warnings for the
local store token. -/
def warnOwnExpiry (cfg : StoredConfig) : List String :=
  if cfg.isExpired then
    ["warning: token has expired — run: meta-adlib auth refresh"]
  else if 0 ≤ cfg.daysUntilExpiry ∧ cfg.daysUntilExpiry ≤ 7 then
    ["warning: token expires in " ++ toString cfg.daysUntilExpiry
      ++ " day(s) — run: meta-adlib auth refresh"]
  else []

/-- `warnSharedExpiry` (part_001, lines 233–241): stderr warnings for
the shared store token, from `metaauth.IsExpired()` and
`metaauth.DaysUntilExpiry()`. -/
def warnSharedExpiry (isExpired : Bool) (days : Int) : List String :=
  if isExpired then
    ["warning: meta-auth token has expired — run: meta-auth refresh"]
  else if 0 ≤ days ∧ days ≤ 7 then
    ["warning: meta-auth token expires in " ++ toString days ++ " day(s) — run: meta-auth refresh"]
  else []

/-- `resolveToken` (part_001, lines 190–218).  Inputs are the
environment override (`META_TOKEN`, `""` when unset), the result of
`config.Load()`, the result of `metaauth.Token()` and the shared
store's expiry answers.  Returns the stderr warnings and the result. -/
def resolveToken (env : String) (ownLoad : Except String StoredConfig)
    (sharedLoad : Except String String) (sharedExpired : Bool) (sharedDays : Int) :
    List String × Except ResolveError String :=
  if env ≠ "" then ([], .ok env)
  else
    match ownLoad with
    | .error e => ([], .error (.loadFailed ("failed to load config: " ++ e)))
    | .ok cfg =>
      if cfg.accessToken ≠ "" then (warnOwnExpiry cfg, .ok cfg.accessToken)
      else
        match sharedLoad with
        | .error e => ([], .error (.sharedReadFailed ("failed to read meta-auth config: " ++ e)))
        | .ok sharedToken =>
          if sharedToken ≠ "" then
            (warnSharedExpiry sharedExpired sharedDays, .ok sharedToken)
          else ([], .error (.unauthenticated unauthenticatedMsg))

/-! ## `auth set-token` (part_002, lines 145–196) -/

/-- The config record written by `config.Save` in `runAuthSetToken`. -/
structure SavedConfig where
  accessToken : String
  userID : String
  userName : String
  tokenExpiresAt : Int
deriving Repr, DecidableEq

/-- `runAuthSetToken` (part_002, lines 145–196) up to `config.Save`.
Inputs: the token argument, the `META_APP_ID` / `META_APP_SECRET`
environment values (`""` when unset), the `--no-extend` flag, the
result of the network call `exchangeToLongLived` (token and absolute
expiry) and the validator `fetchMe` as a function of the token it is
called with.  Returns the stderr lines and either the validation
failure or the config record that gets saved. -/
def runAuthSetToken (token appID appSecret : String) (noExtend : Bool)
    (exchange : Except String (String × Int))
    (fetchMe : String → Except String (String × String)) :
    List String × Except String SavedConfig :=
  let step :=
    if ¬noExtend ∧ appID ≠ "" ∧ appSecret ≠ "" then
      match exchange with
      | .error e =>
        (["warning: could not upgrade to long-lived token: " ++ e,
          "         saving original token. Use --no-extend to suppress this warning."],
          token, (0 : Int))
      | .ok (lt, exp) => ([], lt, exp)
    else if ¬noExtend ∧ (appID = "" ∨ appSecret = "") then
      (["note: META_APP_ID / META_APP_SECRET not set — saving token as-is (not extended)",
        "      to extend later: meta-adlib auth extend-token <token> --save"],
        token, (0 : Int))
    else ([], token, (0 : Int))
  let (warns, finalToken, expiresAt) := step
  match fetchMe finalToken with
  | .error e => (warns, .error ("token validation failed: " ++ e))
  | .ok (uid, uname) => (warns, .ok ⟨finalToken, uid, uname, expiresAt⟩)

/-! ## Helper shapes for reasoning about the pagination loop -/

/-- A well-formed page response: status 200, no embedded error payload,
parsing as a page with the given data and continuation locator. -/
def okPageResp (d : List String) (next : Option URLModel) : HTTPResult :=
  .response none 200 ⟨none, some ⟨d, some ⟨next⟩⟩, ""⟩

/-- A well-formed final page response: its envelope has no `paging`
descriptor at all. -/
def okLastPageResp (d : List String) : HTTPResult :=
  .response none 200 ⟨none, some ⟨d, none⟩, ""⟩

/-- The error the pagination loop derives from one transport result:
`doRequest`'s error if any, a page-parse error if the body is not a
page envelope, `none` when the iteration succeeds. -/
def respError (r : HTTPResult) : Option ClientError :=
  match (doRequest r).2 with
  | .error e => some e
  | .ok body =>
    match body.page with
    | none => some .parsePage
    | some _ => none

/-- Total record count of a list of continuation pages. -/
def sumLens (pre : List (List String × URLModel)) : Nat :=
  (pre.map (fun pd => pd.1.length)).sum

/-- The server list in which each page of `pre` is served as a
well-formed response whose continuation locator is its second
component, followed by arbitrary further transport results. -/
def contServer (pre : List (List String × URLModel)) (rest : List HTTPResult) :
    List HTTPResult :=
  pre.map (fun pd => okPageResp pd.1 (some pd.2)) ++ rest

theorem searchAdsLoop_nil (h : Heap) (pRef : Nat) (tgt : Target) (token : String)
    (limit : Int) (all : List String) :
    searchAdsLoop [] h pRef tgt token limit all =
      ⟨.error (.transport "request failed: no response"), h,
        [buildURL tgt (baseParams token) (h.read pRef)]⟩ := rfl

theorem searchAdsLoop_cons_error (r : HTTPResult) (rest : List HTTPResult) (h : Heap)
    (pRef : Nat) (tgt : Target) (token : String) (limit : Int) (all : List String)
    (e : ClientError) (hdo : (doRequest r).2 = .error e) :
    searchAdsLoop (r :: rest) h pRef tgt token limit all =
      ⟨.error e, h, [buildURL tgt (baseParams token) (h.read pRef)]⟩ := by
  simp only [searchAdsLoop, hdo]

theorem searchAdsLoop_cons_parseErr (r : HTTPResult) (rest : List HTTPResult) (h : Heap)
    (pRef : Nat) (tgt : Target) (token : String) (limit : Int) (all : List String)
    (body : BodyModel) (hdo : (doRequest r).2 = .ok body) (hpg : body.page = none) :
    searchAdsLoop (r :: rest) h pRef tgt token limit all =
      ⟨.error .parsePage, h, [buildURL tgt (baseParams token) (h.read pRef)]⟩ := by
  simp only [searchAdsLoop, hdo, hpg]

theorem searchAdsLoop_cons_limit (r : HTTPResult) (rest : List HTTPResult) (h : Heap)
    (pRef : Nat) (tgt : Target) (token : String) (limit : Int) (all : List String)
    (body : BodyModel) (page : PageModel)
    (hdo : (doRequest r).2 = .ok body) (hpg : body.page = some page)
    (hc : limit > 0 ∧ ((all ++ page.data).length : Int) ≥ limit) :
    searchAdsLoop (r :: rest) h pRef tgt token limit all =
      ⟨.ok ((all ++ page.data).take limit.toNat), h,
        [buildURL tgt (baseParams token) (h.read pRef)]⟩ := by
  simp only [searchAdsLoop, hdo, hpg]
  rw [if_pos hc]

theorem searchAdsLoop_cons_noPaging (r : HTTPResult) (rest : List HTTPResult) (h : Heap)
    (pRef : Nat) (tgt : Target) (token : String) (limit : Int) (all : List String)
    (body : BodyModel) (page : PageModel)
    (hdo : (doRequest r).2 = .ok body) (hpg : body.page = some page)
    (hc : ¬(limit > 0 ∧ ((all ++ page.data).length : Int) ≥ limit))
    (hpaging : page.paging = none) :
    searchAdsLoop (r :: rest) h pRef tgt token limit all =
      ⟨.ok (all ++ page.data), h, [buildURL tgt (baseParams token) (h.read pRef)]⟩ := by
  simp only [searchAdsLoop, hdo, hpg, hpaging]
  rw [if_neg hc]

theorem searchAdsLoop_cons_noNext (r : HTTPResult) (rest : List HTTPResult) (h : Heap)
    (pRef : Nat) (tgt : Target) (token : String) (limit : Int) (all : List String)
    (body : BodyModel) (page : PageModel) (paging : PagingModel)
    (hdo : (doRequest r).2 = .ok body) (hpg : body.page = some page)
    (hc : ¬(limit > 0 ∧ ((all ++ page.data).length : Int) ≥ limit))
    (hpaging : page.paging = some paging) (hnext : paging.next = none) :
    searchAdsLoop (r :: rest) h pRef tgt token limit all =
      ⟨.ok (all ++ page.data), h, [buildURL tgt (baseParams token) (h.read pRef)]⟩ := by
  simp only [searchAdsLoop, hdo, hpg, hpaging, hnext]
  rw [if_neg hc]

theorem searchAdsLoop_cons_cont (r : HTTPResult) (rest : List HTTPResult) (h : Heap)
    (pRef : Nat) (tgt : Target) (token : String) (limit : Int) (all : List String)
    (body : BodyModel) (page : PageModel) (paging : PagingModel) (u : URLModel)
    (hdo : (doRequest r).2 = .ok body) (hpg : body.page = some page)
    (hc : ¬(limit > 0 ∧ ((all ++ page.data).length : Int) ≥ limit))
    (hpaging : page.paging = some paging) (hnext : paging.next = some u) :
    searchAdsLoop (r :: rest) h pRef tgt token limit all =
      ⟨(searchAdsLoop rest (h.alloc []).1 (h.alloc []).2 (.absolute u) token limit (all ++ page.data)).result,
       (searchAdsLoop rest (h.alloc []).1 (h.alloc []).2 (.absolute u) token limit (all ++ page.data)).heap,
       buildURL tgt (baseParams token) (h.read pRef) ::
         (searchAdsLoop rest (h.alloc []).1 (h.alloc []).2 (.absolute u) token limit (all ++ page.data)).requests⟩ := by
  simp only [searchAdsLoop, hdo, hpg, hpaging, hnext]
  rw [if_neg hc]

/-- `doRequest` on a well-formed page response succeeds with its body. -/
theorem doRequest_okPageResp (d : List String) (next : Option URLModel) :
    (doRequest (okPageResp d next)).2 = .ok ⟨none, some ⟨d, some ⟨next⟩⟩, ""⟩ := rfl

/-- `doRequest` on a well-formed final page response succeeds. -/
theorem doRequest_okLastPageResp (d : List String) :
    (doRequest (okLastPageResp d)).2 = .ok ⟨none, some ⟨d, none⟩, ""⟩ := rfl

theorem searchAdsLoop_requests_head (srv : List HTTPResult) (h : Heap) (pRef : Nat)
    (tgt : Target) (token : String) (limit : Int) (all : List String) :
    (searchAdsLoop srv h pRef tgt token limit all).requests.head? =
      some (buildURL tgt (baseParams token) (h.read pRef)) := by
  cases srv with
  | nil =>
    rw [searchAdsLoop_nil]
    rfl
  | cons r rest =>
    cases hdo : (doRequest r).2 with
    | error e =>
      rw [searchAdsLoop_cons_error r rest h pRef tgt token limit all e hdo]
      rfl
    | ok body =>
      cases hpg : body.page with
      | none =>
        rw [searchAdsLoop_cons_parseErr r rest h pRef tgt token limit all body hdo hpg]
        rfl
      | some page =>
        by_cases hc : limit > 0 ∧ ((all ++ page.data).length : Int) ≥ limit
        · rw [searchAdsLoop_cons_limit r rest h pRef tgt token limit all body page hdo hpg hc]
          rfl
        · cases hpaging : page.paging with
          | none =>
            rw [searchAdsLoop_cons_noPaging r rest h pRef tgt token limit all body page
              hdo hpg hc hpaging]
            rfl
          | some paging =>
            cases hnext : paging.next with
            | none =>
              rw [searchAdsLoop_cons_noNext r rest h pRef tgt token limit all body page paging
                hdo hpg hc hpaging hnext]
              rfl
            | some u =>
              rw [searchAdsLoop_cons_cont r rest h pRef tgt token limit all body page paging u
                hdo hpg hc hpaging hnext]
              rfl

theorem searchAdsLoop_heap_extends (srv : List HTTPResult) :
    ∀ (h : Heap) (pRef : Nat) (tgt : Target) (token : String) (limit : Int)
      (all : List String),
      ∃ t, (searchAdsLoop srv h pRef tgt token limit all).heap = h ++ t := by
  induction srv with
  | nil => exact fun h _ _ _ _ _ => ⟨[], by rw [searchAdsLoop_nil]; simp⟩
  | cons r rest ih =>
    intro h pRef tgt token limit all
    cases hdo : (doRequest r).2 with
    | error e => exact ⟨[], by rw [searchAdsLoop_cons_error r rest h pRef tgt token limit all e hdo]; simp⟩
    | ok body =>
      cases hpg : body.page with
      | none =>
        exact ⟨[], by
          rw [searchAdsLoop_cons_parseErr r rest h pRef tgt token limit all body hdo hpg]; simp⟩
      | some page =>
        by_cases hc : limit > 0 ∧ ((all ++ page.data).length : Int) ≥ limit
        · exact ⟨[], by
            rw [searchAdsLoop_cons_limit r rest h pRef tgt token limit all body page hdo hpg hc]
            simp⟩
        · cases hpaging : page.paging with
          | none =>
            exact ⟨[], by
              rw [searchAdsLoop_cons_noPaging r rest h pRef tgt token limit all body page
                hdo hpg hc hpaging]
              simp⟩
          | some paging =>
            cases hnext : paging.next with
            | none =>
              exact ⟨[], by
                rw [searchAdsLoop_cons_noNext r rest h pRef tgt token limit all body page paging
                  hdo hpg hc hpaging hnext]
                simp⟩
            | some u =>
              obtain ⟨t, ht⟩ := ih (h.alloc []).1 (h.alloc []).2 (.absolute u) token limit (all ++ page.data)
              refine ⟨[] :: t, ?_⟩
              rw [searchAdsLoop_cons_cont r rest h pRef tgt token limit all body page paging u
                hdo hpg hc hpaging hnext]
              simpa [Heap.alloc] using ht

theorem searchAdsLoop_heap_irrel (srv : List HTTPResult) :
    ∀ (tgt : Target) (token : String) (limit : Int) (all : List String)
      (h h' : Heap) (pRef pRef' : Nat),
      (searchAdsLoop srv h pRef tgt token limit all).result =
        (searchAdsLoop srv h' pRef' tgt token limit all).result ∧
      (searchAdsLoop srv h pRef tgt token limit all).requests.length =
        (searchAdsLoop srv h' pRef' tgt token limit all).requests.length := by
  induction srv with
  | nil =>
    intro tgt token limit all h h' pRef pRef'
    rw [searchAdsLoop_nil, searchAdsLoop_nil]
    exact ⟨rfl, rfl⟩
  | cons r rest ih =>
    intro tgt token limit all h h' pRef pRef'
    cases hdo : (doRequest r).2 with
    | error e =>
      rw [searchAdsLoop_cons_error r rest h pRef tgt token limit all e hdo,
        searchAdsLoop_cons_error r rest h' pRef' tgt token limit all e hdo]
      exact ⟨rfl, rfl⟩
    | ok body =>
      cases hpg : body.page with
      | none =>
        rw [searchAdsLoop_cons_parseErr r rest h pRef tgt token limit all body hdo hpg,
          searchAdsLoop_cons_parseErr r rest h' pRef' tgt token limit all body hdo hpg]
        exact ⟨rfl, rfl⟩
      | some page =>
        by_cases hc : limit > 0 ∧ ((all ++ page.data).length : Int) ≥ limit
        · rw [searchAdsLoop_cons_limit r rest h pRef tgt token limit all body page hdo hpg hc,
            searchAdsLoop_cons_limit r rest h' pRef' tgt token limit all body page hdo hpg hc]
          exact ⟨rfl, rfl⟩
        · cases hpaging : page.paging with
          | none =>
            rw [searchAdsLoop_cons_noPaging r rest h pRef tgt token limit all body page
              hdo hpg hc hpaging,
              searchAdsLoop_cons_noPaging r rest h' pRef' tgt token limit all body page
              hdo hpg hc hpaging]
            exact ⟨rfl, rfl⟩
          | some paging =>
            cases hnext : paging.next with
            | none =>
              rw [searchAdsLoop_cons_noNext r rest h pRef tgt token limit all body page paging
                hdo hpg hc hpaging hnext,
                searchAdsLoop_cons_noNext r rest h' pRef' tgt token limit all body page paging
                hdo hpg hc hpaging hnext]
              exact ⟨rfl, rfl⟩
            | some u =>
              obtain ⟨h1, h2⟩ := ih (.absolute u) token limit (all ++ page.data)
                (h.alloc []).1 (h'.alloc []).1 (h.alloc []).2 (h'.alloc []).2
              rw [searchAdsLoop_cons_cont r rest h pRef tgt token limit all body page paging u
                hdo hpg hc hpaging hnext,
                searchAdsLoop_cons_cont r rest h' pRef' tgt token limit all body page paging u
                hdo hpg hc hpaging hnext]
              exact ⟨h1, by simpa using h2⟩

/-! ## Claim theorems -/

/-- C7: Encoding the country set `["US","DE"]` through the Query
Builder's repeatable-filter encoding (`toJSONArray`) produces a value
with each element individually quoted, comma-joined, bracket-delimited
and with no surrounding whitespace, and decoding that parameter value
as JSON yields back `["US","DE"]` exactly, with quoting and ordering
preserved. -/
theorem toJSONArray_roundtrip_US_DE :
    toJSONArray ["US", "DE"] = "[\"US\",\"DE\"]" ∧
    jsonParseStringArray (toJSONArray ["US", "DE"]) = some ["US", "DE"] := by
  constructor
  · rfl
  · rfl

/-- C6 counterexample: the claim says the usage figure is the maximum
of all three reported sub-metrics (call count, cumulative CPU time,
cumulative wall time) and that a warning is emitted exactly when that
maximum exceeds 75.  For the header `{call_count: 10, total_cputime:
90, total_time: 20}` the three-way maximum is 90 > 75, yet
`checkRateLimit` emits no warning: the code never consults
`total_cputime`. -/
theorem checkRateLimit_not_max_of_three :
    75 < max (max 10 90) (20 : Int) ∧
    checkRateLimit (some (.parsed 10 90 20)) = [] := by
  constructor
  · norm_num
  · rfl

theorem checkRateLimit_parsed_eq (c cpu t : Int) :
    checkRateLimit (some (.parsed c cpu t)) =
      if max c t > 75 then
        ["warning: rate limit " ++ toString (max c t)
          ++ "% used — slow down to avoid HTTP 613"]
      else [] := by
  have hmax : (if t > c then t else c) = max c t := by
    rcases le_total t c with h | h
    · rw [if_neg (not_lt.mpr h), max_eq_left h]
    · rcases lt_or_eq_of_le h with hlt | heq
      · rw [if_pos hlt, max_eq_right h]
      · subst heq; simp
  show (if (if t > c then t else c) > 75 then
      ["warning: rate limit " ++ toString (if t > c then t else c)
        ++ "% used — slow down to avoid HTTP 613"]
    else []) = _
  rw [hmax]

/-- C6 (amended): the rate-quota check runs on every response
unconditionally before body error-checking and never changes the
request's outcome; the usage figure is the maximum of the call-count
and cumulative wall-time percentages only (the cumulative CPU time is
parsed but ignored), and exactly one diagnostic warning is emitted per
response exactly when that maximum exceeds 75 — so `{call_count: 80,
total_time: 40}` triggers exactly one warning and `{call_count: 10,
total_time: 20}` triggers none. -/
theorem checkRateLimit_max_call_count_total_time :
    (∀ c cpu t : Int,
      (checkRateLimit (some (.parsed c cpu t))).length =
        if max c t > 75 then 1 else 0) ∧
    (∀ (usage : Option UsageHeader) (status : Nat) (body : BodyModel),
      (doRequest (.response usage status body)).1 = checkRateLimit usage ∧
      (doRequest (.response usage status body)).2 =
        (doRequest (.response none status body)).2) ∧
    (checkRateLimit (some (.parsed 80 0 40))).length = 1 ∧
    (checkRateLimit (some (.parsed 10 0 20))).length = 0 := by
  refine ⟨?_, ?_, rfl, rfl⟩
  · intro c cpu t
    rw [checkRateLimit_parsed_eq]
    by_cases h : max c t > 75
    · rw [if_pos h, if_pos h]
      rfl
    · rw [if_neg h, if_neg h]
      rfl
  · intro usage status body
    exact ⟨rfl, rfl⟩

/-- C2: for every response processed by `doRequest`, a non-empty error
payload embedded in the body is returned as the error regardless of
HTTP status (in particular under status 200); only when no payload is
present is a status ≥ 400 reported as an error carrying the status
code and the raw body; only when neither holds is the body returned as
a well-formed page. -/
theorem doRequest_error_precedence :
    (∀ (usage : Option UsageHeader) (status : Nat) (body : BodyModel) (e : MetaError),
      body.errorPayload = some e →
      (doRequest (.response usage status body)).2 = .error (.meta e)) ∧
    (∀ (usage : Option UsageHeader) (status : Nat) (body : BodyModel),
      body.errorPayload = none → 400 ≤ status →
      (doRequest (.response usage status body)).2 = .error (.http status body.raw)) ∧
    (∀ (usage : Option UsageHeader) (status : Nat) (body : BodyModel),
      body.errorPayload = none → status < 400 →
      (doRequest (.response usage status body)).2 = .ok body) := by
  refine ⟨?_, ?_, ?_⟩
  · intro usage status body e he
    simp only [doRequest, he]
  · intro usage status body he hs
    simp only [doRequest, he]
    rw [if_pos hs]
  · intro usage status body he hs
    simp only [doRequest, he]
    rw [if_neg (not_le.mpr hs)]

/-- Witness for C2: a body with an embedded error payload under HTTP
status 200 is an error, never a success; a 500 without payload is an
HTTP error; a 200 without payload is a page. -/
theorem doRequest_error_precedence_witness :
    (doRequest (.response none 200
        ⟨some ⟨190, "Invalid OAuth access token.", "OAuthException", 0⟩, none, "raw"⟩)).2 =
      .error (.meta ⟨190, "Invalid OAuth access token.", "OAuthException", 0⟩) ∧
    (doRequest (.response none 500 ⟨none, none, "oops"⟩)).2 = .error (.http 500 "oops") ∧
    (doRequest (.response none 200 ⟨none, some ⟨[], none⟩, "ok"⟩)).2 =
      .ok ⟨none, some ⟨[], none⟩, "ok"⟩ :=
  ⟨doRequest_error_precedence.1 none 200 _ _ rfl,
   doRequest_error_precedence.2.1 none 500 _ rfl (by norm_num),
   doRequest_error_precedence.2.2 none 200 _ rfl (by norm_num)⟩

/-- C4: token resolution follows the first-non-empty-wins priority
chain — environment override (returned immediately, no warning),
then local store (with expiry warnings emitted alongside, the token
still returned), then shared store (likewise); when nothing yields a
token it fails with an `unauthenticated` error whose message names
both remediation paths (shared login and local set-token). -/
theorem resolveToken_priority_chain :
    (∀ (env : String) (own : Except String StoredConfig)
       (shared : Except String String) (se : Bool) (sd : Int), env ≠ "" →
      resolveToken env own shared se sd = ([], .ok env)) ∧
    (∀ (cfg : StoredConfig) (shared : Except String String) (se : Bool) (sd : Int),
      cfg.accessToken ≠ "" →
      resolveToken "" (.ok cfg) shared se sd = (warnOwnExpiry cfg, .ok cfg.accessToken)) ∧
    (∀ (cfg : StoredConfig) (t : String) (se : Bool) (sd : Int),
      cfg.accessToken = "" → t ≠ "" →
      resolveToken "" (.ok cfg) (.ok t) se sd = (warnSharedExpiry se sd, .ok t)) ∧
    (∀ (cfg : StoredConfig) (se : Bool) (sd : Int), cfg.accessToken = "" →
      resolveToken "" (.ok cfg) (.ok "") se sd =
        ([], .error (.unauthenticated unauthenticatedMsg))) ∧
    (∀ cfg : StoredConfig, cfg.isExpired = true →
      warnOwnExpiry cfg = ["warning: token has expired — run: meta-adlib auth refresh"]) ∧
    (∀ cfg : StoredConfig, cfg.isExpired = false → 0 ≤ cfg.daysUntilExpiry →
      cfg.daysUntilExpiry ≤ 7 →
      warnOwnExpiry cfg = ["warning: token expires in " ++ toString cfg.daysUntilExpiry
        ++ " day(s) — run: meta-adlib auth refresh"]) ∧
    unauthenticatedMsg =
      "not authenticated — run: meta-auth login  (shared)\nor: meta-adlib auth set-token <token>  (local only)" := by
  refine ⟨?_, ?_, ?_, ?_, ?_, ?_, rfl⟩
  · intro env own shared se sd henv
    simp only [resolveToken, if_pos henv]
  · intro cfg shared se sd htok
    simp only [resolveToken]
    rw [if_neg (by simp), if_pos htok]
  · intro cfg t se sd hcfg ht
    simp only [resolveToken]
    rw [if_neg (by simp), if_neg (by simp [hcfg]), if_pos ht]
  · intro cfg se sd hcfg
    simp only [resolveToken]
    rw [if_neg (by simp), if_neg (by simp [hcfg]), if_neg (by simp)]
  · intro cfg hexp
    simp [warnOwnExpiry, hexp]
  · intro cfg hexp h0 h7
    simp [warnOwnExpiry, hexp, h0, h7]

/-- Witness for C4: concrete instances of every link of the chain. -/
theorem resolveToken_priority_chain_witness :
    resolveToken "envTok" (.error "boom") (.ok "sh") true 0 = ([], .ok "envTok") ∧
    resolveToken "" (.ok ⟨"localTok", false, 30⟩) (.ok "sh") false 99 =
      (warnOwnExpiry ⟨"localTok", false, 30⟩, .ok "localTok") ∧
    resolveToken "" (.ok ⟨"", false, -1⟩) (.ok "sharedTok") true 0 =
      (warnSharedExpiry true 0, .ok "sharedTok") ∧
    resolveToken "" (.ok ⟨"", false, -1⟩) (.ok "") false (-1) =
      ([], .error (.unauthenticated unauthenticatedMsg)) ∧
    warnOwnExpiry ⟨"tk", true, 0⟩ =
      ["warning: token has expired — run: meta-adlib auth refresh"] ∧
    warnOwnExpiry ⟨"tk", false, 7⟩ =
      ["warning: token expires in " ++ toString (7 : Int)
        ++ " day(s) — run: meta-adlib auth refresh"] :=
  ⟨resolveToken_priority_chain.1 "envTok" (.error "boom") (.ok "sh") true 0 (by decide),
   resolveToken_priority_chain.2.1 ⟨"localTok", false, 30⟩ (.ok "sh") false 99 (by decide),
   resolveToken_priority_chain.2.2.1 ⟨"", false, -1⟩ "sharedTok" true 0 rfl (by decide),
   resolveToken_priority_chain.2.2.2.1 ⟨"", false, -1⟩ false (-1) rfl,
   resolveToken_priority_chain.2.2.2.2.1 ⟨"tk", true, 0⟩ rfl,
   resolveToken_priority_chain.2.2.2.2.2.1 ⟨"tk", false, 7⟩ rfl (by norm_num) (by norm_num)⟩

/-- C5: query validation checks the country-set precondition first and
the text/page-identifier disjunction second, reports only the first
violated precondition, and in either failure case issues no network
request. -/
theorem runSearch_validation_order :
    (∀ s : SearchSpec, s.countries = [] →
      runSearchBuild s =
        .validationError "at least one --country is required (e.g. --country US)" ∧
      ∀ (srv : List HTTPResult) (token : String),
        runSearchNetworkCalls s srv token = 0) ∧
    (∀ s : SearchSpec, s.countries ≠ [] → s.query = "" → s.pageIDs = [] →
      runSearchBuild s =
        .validationError "at least one of --query or --page-id is required" ∧
      ∀ (srv : List HTTPResult) (token : String),
        runSearchNetworkCalls s srv token = 0) := by
  constructor
  · intro s hc
    have hb : runSearchBuild s =
        .validationError "at least one --country is required (e.g. --country US)" := by
      unfold runSearchBuild
      rw [if_pos (by simp [hc])]
    refine ⟨hb, fun srv token => ?_⟩
    unfold runSearchNetworkCalls
    rw [hb]
  · intro s hc hq hp
    have hb : runSearchBuild s =
        .validationError "at least one of --query or --page-id is required" := by
      unfold runSearchBuild
      rw [if_neg (by simpa [List.length_eq_zero] using hc), if_pos ⟨hq, by simp [hp]⟩]
    refine ⟨hb, fun srv token => ?_⟩
    unfold runSearchNetworkCalls
    rw [hb]

/-- Witness for C5: a spec with no country fails on the country
precondition even though it also lacks query and page ids; a spec with
a country but neither query nor page ids fails on the disjunction;
both issue zero network requests. -/
theorem runSearch_validation_order_witness :
    (runSearchBuild ⟨"", [], [], "ALL", "ALL", "", "", [], [], 25, "id", ""⟩ =
      .validationError "at least one --country is required (e.g. --country US)" ∧
     runSearchNetworkCalls ⟨"", [], [], "ALL", "ALL", "", "", [], [], 25, "id", ""⟩ [] "t" = 0) ∧
    (runSearchBuild ⟨"", ["US"], [], "ALL", "ALL", "", "", [], [], 25, "id", ""⟩ =
      .validationError "at least one of --query or --page-id is required" ∧
     runSearchNetworkCalls ⟨"", ["US"], [], "ALL", "ALL", "", "", [], [], 25, "id", ""⟩ [] "t" = 0) := by
  have h1 := runSearch_validation_order.1 ⟨"", [], [], "ALL", "ALL", "", "", [], [], 25, "id", ""⟩ rfl
  have h2 := runSearch_validation_order.2 ⟨"", ["US"], [], "ALL", "ALL", "", "", [], [], 25, "id", ""⟩
    (by decide) rfl rfl
  exact ⟨⟨h1.1, h1.2 [] "t"⟩, ⟨h2.1, h2.2 [] "t"⟩⟩

/-- C8: in `auth set-token`, when both application identity secrets are
present and the caller has not opted out, the freshly supplied token
is exchanged before validation; when that exchange fails the command
does not fail because of it — two warning lines go to stderr and the
original, un-upgraded token is validated and saved instead (with no
expiry recorded). -/
theorem runAuthSetToken_exchange_failure_graceful :
    ∀ (token appID appSecret e : String)
      (fetchMe : String → Except String (String × String)),
      appID ≠ "" → appSecret ≠ "" →
      runAuthSetToken token appID appSecret false (.error e) fetchMe =
        (["warning: could not upgrade to long-lived token: " ++ e,
          "         saving original token. Use --no-extend to suppress this warning."],
         match fetchMe token with
         | .error ve => .error ("token validation failed: " ++ ve)
         | .ok (uid, uname) => .ok ⟨token, uid, uname, 0⟩) := by
  intro token appID appSecret e fetchMe hID hSec
  simp only [runAuthSetToken]
  rw [if_pos ⟨by simp, hID, hSec⟩]
  cases hf : fetchMe token with
  | error ve => simp [hf]
  | ok p =>
    cases p with
    | mk uid uname => simp [hf]

/-- Witness for C8: with app secrets set and a failing exchange, the
original token is validated and saved, with the warning emitted. -/
theorem runAuthSetToken_exchange_failure_graceful_witness :
    runAuthSetToken "tokA" "123" "abc" false (.error "boom")
        (fun _ => .ok ("42", "Jane")) =
      (["warning: could not upgrade to long-lived token: boom",
        "         saving original token. Use --no-extend to suppress this warning."],
       .ok ⟨"tokA", "42", "Jane", 0⟩) := by
  rw [runAuthSetToken_exchange_failure_graceful "tokA" "123" "abc" "boom"
    (fun _ => .ok ("42", "Jane")) (by decide) (by decide)]
  rfl

/-- C1: the pagination engine appends each page's records in server
emission order and stops only on the limit condition (truncating to
exactly the limit) or on cursor exhaustion.  In particular, for three
pages of 40 records each whose last page has no continuation
descriptor, a fetch with limit 0 returns all 120 records in order
(issuing three requests), and a fetch with limit 50 returns exactly
the first 50 records after issuing exactly two page requests, not
three. -/
theorem SearchAds_three_pages_limits :
    ∀ (d1 d2 d3 : List String) (u2 u3 : URLModel) (token : String) (h : Heap)
      (paramsRef : Nat),
      d1.length = 40 → d2.length = 40 → d3.length = 40 →
      ((SearchAds [okPageResp d1 (some u2), okPageResp d2 (some u3), okLastPageResp d3]
          token h paramsRef 0).result = .ok (d1 ++ d2 ++ d3) ∧
       (SearchAds [okPageResp d1 (some u2), okPageResp d2 (some u3), okLastPageResp d3]
          token h paramsRef 0).requests.length = 3) ∧
      ((SearchAds [okPageResp d1 (some u2), okPageResp d2 (some u3), okLastPageResp d3]
          token h paramsRef 50).result = .ok ((d1 ++ d2 ++ d3).take 50) ∧
       (SearchAds [okPageResp d1 (some u2), okPageResp d2 (some u3), okLastPageResp d3]
          token h paramsRef 50).requests.length = 2) := by
  intro d1 d2 d3 u2 u3 token h paramsRef hd1 hd2 hd3
  have key0 : ∀ (hh : Heap) (pr : Nat) (tgt : Target),
      (searchAdsLoop [okPageResp d1 (some u2), okPageResp d2 (some u3), okLastPageResp d3]
        hh pr tgt token 0 []).result = .ok (d1 ++ d2 ++ d3) ∧
      (searchAdsLoop [okPageResp d1 (some u2), okPageResp d2 (some u3), okLastPageResp d3]
        hh pr tgt token 0 []).requests.length = 3 := by
    intro hh pr tgt
    rw [searchAdsLoop_cons_cont (okPageResp d1 (some u2))
      [okPageResp d2 (some u3), okLastPageResp d3] hh pr tgt token 0 []
      ⟨none, some ⟨d1, some ⟨some u2⟩⟩, ""⟩ ⟨d1, some ⟨some u2⟩⟩ ⟨some u2⟩ u2
      (doRequest_okPageResp d1 (some u2)) rfl (by simp) rfl rfl]
    rw [searchAdsLoop_cons_cont (okPageResp d2 (some u3)) [okLastPageResp d3]
      (hh.alloc []).1 (hh.alloc []).2 (.absolute u2) token 0 ([] ++ d1)
      ⟨none, some ⟨d2, some ⟨some u3⟩⟩, ""⟩ ⟨d2, some ⟨some u3⟩⟩ ⟨some u3⟩ u3
      (doRequest_okPageResp d2 (some u3)) rfl (by simp) rfl rfl]
    rw [searchAdsLoop_cons_noPaging (okLastPageResp d3) []
      ((hh.alloc []).1.alloc []).1 ((hh.alloc []).1.alloc []).2 (.absolute u3) token 0
      (([] ++ d1) ++ d2) ⟨none, some ⟨d3, none⟩, ""⟩ ⟨d3, none⟩
      (doRequest_okLastPageResp d3) rfl (by simp) rfl]
    constructor
    · show Except.ok ((([] ++ d1) ++ d2) ++ d3) = Except.ok (d1 ++ d2 ++ d3)
      rw [List.nil_append]
    · rfl
  have key50 : ∀ (hh : Heap) (pr : Nat) (tgt : Target),
      (searchAdsLoop [okPageResp d1 (some u2), okPageResp d2 (some u3), okLastPageResp d3]
        hh pr tgt token 50 []).result = .ok ((d1 ++ d2 ++ d3).take 50) ∧
      (searchAdsLoop [okPageResp d1 (some u2), okPageResp d2 (some u3), okLastPageResp d3]
        hh pr tgt token 50 []).requests.length = 2 := by
    intro hh pr tgt
    have hc1 : ¬((50 : Int) > 0 ∧ ((([] : List String) ++ d1).length : Int) ≥ 50) := by
      rw [List.nil_append, hd1]
      norm_num
    have hc2 : (50 : Int) > 0 ∧ (((([] : List String) ++ d1) ++ d2).length : Int) ≥ 50 := by
      rw [List.nil_append, List.length_append, hd1, hd2]
      norm_num
    rw [searchAdsLoop_cons_cont (okPageResp d1 (some u2))
      [okPageResp d2 (some u3), okLastPageResp d3] hh pr tgt token 50 []
      ⟨none, some ⟨d1, some ⟨some u2⟩⟩, ""⟩ ⟨d1, some ⟨some u2⟩⟩ ⟨some u2⟩ u2
      (doRequest_okPageResp d1 (some u2)) rfl hc1 rfl rfl]
    rw [searchAdsLoop_cons_limit (okPageResp d2 (some u3)) [okLastPageResp d3]
      (hh.alloc []).1 (hh.alloc []).2 (.absolute u2) token 50 ([] ++ d1)
      ⟨none, some ⟨d2, some ⟨some u3⟩⟩, ""⟩ ⟨d2, some ⟨some u3⟩⟩
      (doRequest_okPageResp d2 (some u3)) rfl hc2]
    constructor
    · show Except.ok ((([] ++ d1) ++ d2).take (50 : Int).toNat) =
        Except.ok ((d1 ++ d2 ++ d3).take 50)
      rw [List.nil_append]
      have h50 : (50 : Int).toNat = 50 := rfl
      have hle : 50 ≤ (d1 ++ d2).length := by
        rw [List.length_append, hd1, hd2]
        norm_num
      rw [h50, show (d1 ++ d2 ++ d3).take 50 = (d1 ++ d2).take 50 from
        List.take_append_of_le_length hle]
    · rfl
  exact ⟨⟨by simp only [SearchAds]; exact (key0 _ _ _).1,
          by simp only [SearchAds]; exact (key0 _ _ _).2⟩,
         ⟨by simp only [SearchAds]; exact (key50 _ _ _).1,
          by simp only [SearchAds]; exact (key50 _ _ _).2⟩⟩

/-- Witness for C1: the scenario at concrete pages of 40 records. -/
theorem SearchAds_three_pages_limits_witness :
    ((SearchAds [okPageResp (List.replicate 40 "a") (some ⟨"https://p2", []⟩),
        okPageResp (List.replicate 40 "b") (some ⟨"https://p3", []⟩),
        okLastPageResp (List.replicate 40 "c")] "tok" [] 0 0).result =
      .ok (List.replicate 40 "a" ++ List.replicate 40 "b" ++ List.replicate 40 "c") ∧
     (SearchAds [okPageResp (List.replicate 40 "a") (some ⟨"https://p2", []⟩),
        okPageResp (List.replicate 40 "b") (some ⟨"https://p3", []⟩),
        okLastPageResp (List.replicate 40 "c")] "tok" [] 0 0).requests.length = 3) ∧
    ((SearchAds [okPageResp (List.replicate 40 "a") (some ⟨"https://p2", []⟩),
        okPageResp (List.replicate 40 "b") (some ⟨"https://p3", []⟩),
        okLastPageResp (List.replicate 40 "c")] "tok" [] 0 50).result =
      .ok ((List.replicate 40 "a" ++ List.replicate 40 "b" ++ List.replicate 40 "c").take 50) ∧
     (SearchAds [okPageResp (List.replicate 40 "a") (some ⟨"https://p2", []⟩),
        okPageResp (List.replicate 40 "b") (some ⟨"https://p3", []⟩),
        okLastPageResp (List.replicate 40 "c")] "tok" [] 0 50).requests.length = 2) :=
  SearchAds_three_pages_limits (List.replicate 40 "a") (List.replicate 40 "b")
    (List.replicate 40 "c") ⟨"https://p2", []⟩ ⟨"https://p3", []⟩ "tok" [] 0 rfl rfl rfl

theorem sumLens_cons (d : List String) (u : URLModel)
    (pre : List (List String × URLModel)) :
    sumLens ((d, u) :: pre) = d.length + sumLens pre := by
  simp [sumLens]

theorem searchAdsLoop_error_aborts_aux :
    ∀ (pre : List (List String × URLModel)) (bad : HTTPResult) (rest : List HTTPResult)
      (h : Heap) (pRef : Nat) (tgt : Target) (token : String) (limit : Int)
      (all : List String) (e : ClientError),
      respError bad = some e →
      (limit > 0 → (all.length : Int) + (sumLens pre : Int) < limit) →
      (searchAdsLoop (contServer pre (bad :: rest)) h pRef tgt token limit all).result
        = .error e ∧
      (searchAdsLoop (contServer pre (bad :: rest)) h pRef tgt token limit all).requests.length
        = pre.length + 1 := by
  intro pre
  induction pre with
  | nil =>
    intro bad rest h pRef tgt token limit all e hbad hsum
    unfold respError at hbad
    cases hdo : (doRequest bad).2 with
    | error e' =>
      rw [hdo] at hbad
      have he : e' = e := by simpa using hbad
      subst he
      rw [show contServer [] (bad :: rest) = bad :: rest from rfl,
        searchAdsLoop_cons_error bad rest h pRef tgt token limit all e' hdo]
      exact ⟨rfl, rfl⟩
    | ok body =>
      simp only [hdo] at hbad
      cases hpg : body.page with
      | none =>
        simp only [hpg] at hbad
        have he : ClientError.parsePage = e := by simpa using hbad
        subst he
        rw [show contServer [] (bad :: rest) = bad :: rest from rfl,
          searchAdsLoop_cons_parseErr bad rest h pRef tgt token limit all body hdo hpg]
        exact ⟨rfl, rfl⟩
      | some page =>
        simp only [hpg] at hbad
        exact absurd hbad (by simp)
  | cons pd pre' ih =>
    intro bad rest h pRef tgt token limit all e hbad hsum
    obtain ⟨d, u⟩ := pd
    have hc : ¬(limit > 0 ∧ ((all ++ d).length : Int) ≥ limit) := by
      rintro ⟨hl, hge⟩
      have hlt := hsum hl
      rw [sumLens_cons] at hlt
      rw [List.length_append] at hge
      push_cast at hlt hge
      omega
    have hsum' : limit > 0 → (((all ++ d).length : Int) + (sumLens pre' : Int) < limit) := by
      intro hl
      have hlt := hsum hl
      rw [sumLens_cons] at hlt
      rw [List.length_append]
      push_cast at hlt ⊢
      omega
    rw [show contServer ((d, u) :: pre') (bad :: rest) =
        okPageResp d (some u) :: contServer pre' (bad :: rest) from rfl,
      searchAdsLoop_cons_cont (okPageResp d (some u)) (contServer pre' (bad :: rest))
        h pRef tgt token limit all ⟨none, some ⟨d, some ⟨some u⟩⟩, ""⟩ ⟨d, some ⟨some u⟩⟩
        ⟨some u⟩ u (doRequest_okPageResp d (some u)) rfl hc rfl rfl]
    obtain ⟨ih1, ih2⟩ := ih bad rest (h.alloc []).1 (h.alloc []).2 (.absolute u) token limit
      (all ++ d) e hbad hsum'
    refine ⟨ih1, ?_⟩
    show ((searchAdsLoop (contServer pre' (bad :: rest)) (h.alloc []).1 (h.alloc []).2
      (.absolute u) token limit (all ++ d)).requests.length) + 1 = pre'.length + 1 + 1
    rw [ih2]

/-- C9: when any page request of a multi-page fetch fails — transport
failure, an error response, or an unparsable body — the pagination
engine aborts immediately with that error and no partial result
(records accumulated from earlier pages are discarded), and the failed
request is not retried: exactly one request is issued per server
response consumed. -/
theorem SearchAds_error_aborts_no_partial :
    ∀ (pre : List (List String × URLModel)) (bad : HTTPResult) (rest : List HTTPResult)
      (token : String) (h : Heap) (paramsRef : Nat) (limit : Int) (e : ClientError),
      respError bad = some e →
      (limit > 0 → (sumLens pre : Int) < limit) →
      (SearchAds (contServer pre (bad :: rest)) token h paramsRef limit).result = .error e ∧
      (SearchAds (contServer pre (bad :: rest)) token h paramsRef limit).requests.length
        = pre.length + 1 := by
  intro pre bad rest token h paramsRef limit e hbad hsum
  constructor
  · simp only [SearchAds]
    exact (searchAdsLoop_error_aborts_aux pre bad rest _ _ (.relative adLibPath) token limit
      [] e hbad (by simpa using hsum)).1
  · simp only [SearchAds]
    exact (searchAdsLoop_error_aborts_aux pre bad rest _ _ (.relative adLibPath) token limit
      [] e hbad (by simpa using hsum)).2

/-- Witness for C9: one successful page followed by a transport
failure aborts with the transport error after exactly two requests,
discarding the two records already accumulated. -/
theorem SearchAds_error_aborts_no_partial_witness :
    (SearchAds (contServer [(["r0", "r1"], ⟨"https://p2", []⟩)]
        (HTTPResult.transportErr "connection reset" :: [])) "tok" [] 0 0).result =
      .error (.transport ("request failed: " ++ "connection reset")) ∧
    (SearchAds (contServer [(["r0", "r1"], ⟨"https://p2", []⟩)]
        (HTTPResult.transportErr "connection reset" :: [])) "tok" [] 0 0).requests.length = 2 :=
  SearchAds_error_aborts_no_partial [(["r0", "r1"], ⟨"https://p2", []⟩)]
    (HTTPResult.transportErr "connection reset") [] "tok" [] 0 0
    (.transport ("request failed: " ++ "connection reset")) rfl
    (fun hl => absurd hl (by norm_num))

theorem Heap.read_alloc (h : Heap) (v : Values) :
    ((h.alloc v).1).read (h.alloc v).2 = v := by
  show (h ++ [v]).getD h.length [] = v
  rw [List.getD_eq_getElem?_getD, List.getElem?_concat_length]
  rfl

theorem buildURL_absolute_empty (u : URLModel) (token : String) :
    buildURL (.absolute u) (baseParams token) ([] : Values) =
      ⟨u.path, u.query.set "access_token" token⟩ := rfl

theorem searchAdsLoop_cont_requests_aux :
    ∀ (pre : List (List String × URLModel)) (rest : List HTTPResult)
      (h : Heap) (pRef : Nat) (tgt : Target) (token : String) (limit : Int)
      (all : List String) (i : Nat) (d : List String) (u : URLModel),
      pre[i]? = some (d, u) →
      (limit > 0 → (all.length : Int) + (sumLens pre : Int) < limit) →
      (searchAdsLoop (contServer pre rest) h pRef tgt token limit all).requests[i+1]? =
        some ⟨u.path, u.query.set "access_token" token⟩ := by
  intro pre
  induction pre with
  | nil =>
    intro rest h pRef tgt token limit all i d u hget hsum
    simp at hget
  | cons pd pre' ih =>
    intro rest h pRef tgt token limit all i d u hget hsum
    obtain ⟨d₀, u₀⟩ := pd
    have hc : ¬(limit > 0 ∧ ((all ++ d₀).length : Int) ≥ limit) := by
      rintro ⟨hl, hge⟩
      have hlt := hsum hl
      rw [sumLens_cons] at hlt
      rw [List.length_append] at hge
      push_cast at hlt hge
      omega
    rw [show contServer ((d₀, u₀) :: pre') rest =
        okPageResp d₀ (some u₀) :: contServer pre' rest from rfl,
      searchAdsLoop_cons_cont (okPageResp d₀ (some u₀)) (contServer pre' rest)
        h pRef tgt token limit all ⟨none, some ⟨d₀, some ⟨some u₀⟩⟩, ""⟩ ⟨d₀, some ⟨some u₀⟩⟩
        ⟨some u₀⟩ u₀ (doRequest_okPageResp d₀ (some u₀)) rfl hc rfl rfl]
    cases i with
    | zero =>
      have hdu : d₀ = d ∧ u₀ = u := by simpa using hget
      obtain ⟨hd, hu⟩ := hdu
      subst hd
      subst hu
      simp only [List.getElem?_cons_succ]
      rw [← List.head?_eq_getElem?, searchAdsLoop_requests_head, Heap.read_alloc,
        buildURL_absolute_empty]
    | succ j =>
      have hget' : pre'[j]? = some (d, u) := by simpa using hget
      have hsum' : limit > 0 → (((all ++ d₀).length : Int) + (sumLens pre' : Int) < limit) := by
        intro hl
        have hlt := hsum hl
        rw [sumLens_cons] at hlt
        rw [List.length_append]
        push_cast at hlt ⊢
        omega
      have hih := ih rest (h.alloc []).1 (h.alloc []).2 (.absolute u₀) token limit
        (all ++ d₀) j d u hget' hsum'
      simpa using hih

/-- C3: whenever the pagination engine follows a continuation, the
next request's target is the server-supplied next-page locator taken
verbatim as a complete request target — same non-query part, and its
own query parameters with only the bearer token set on top — and the
original parameter set is not merged into it: every key other than the
token keeps exactly the locator's own value. -/
theorem SearchAds_continuation_locator_verbatim :
    ∀ (pre : List (List String × URLModel)) (rest : List HTTPResult) (token : String)
      (h : Heap) (paramsRef : Nat) (limit : Int) (i : Nat) (d : List String) (u : URLModel),
      pre[i]? = some (d, u) →
      (limit > 0 → (sumLens pre : Int) < limit) →
      (SearchAds (contServer pre rest) token h paramsRef limit).requests[i+1]? =
        some ⟨u.path, u.query.set "access_token" token⟩ ∧
      ∀ k : String, k ≠ "access_token" →
        (Values.set u.query "access_token" token).get k = u.query.get k := by
  intro pre rest token h paramsRef limit i d u hget hsum
  refine ⟨?_, fun k hk => Values.get_set_ne _ _ _ _ hk⟩
  simp only [SearchAds]
  exact searchAdsLoop_cont_requests_aux pre rest _ _ (.relative adLibPath) token limit
    [] i d u hget (by simpa using hsum)

/-- Witness for C3: the second request of a two-page fetch is the
locator `https://p2?after=c1` itself with only the token set. -/
theorem SearchAds_continuation_locator_verbatim_witness :
    (SearchAds (contServer [(["r"], ⟨"https://p2", [("after", ["c1"])]⟩)] [])
        "tok" [] 0 0).requests[1]? =
      some ⟨"https://p2", Values.set [("after", ["c1"])] "access_token" "tok"⟩ ∧
    ∀ k : String, k ≠ "access_token" →
      Values.get (Values.set ([("after", ["c1"])] : Values) "access_token" "tok") k =
        Values.get ([("after", ["c1"])] : Values) k :=
  SearchAds_continuation_locator_verbatim [(["r"], ⟨"https://p2", [("after", ["c1"])]⟩)]
    [] "tok" [] 0 0 0 ["r"] ⟨"https://p2", [("after", ["c1"])]⟩ (by simp)
    (fun hl => absurd hl (by norm_num))

theorem Values.filter_set_key (m : Values) (k v : String) :
    (m.set k v).filter (fun e => e.1 = k) = [(k, [v])] := by
  unfold Values.set
  rw [List.filter_append]
  have h1 : (m.filter (fun e => e.1 ≠ k)).filter (fun e => e.1 = k) = [] := by
    induction m with
    | nil => rfl
    | cons e rest ih =>
      by_cases hk : e.1 = k
      · rw [List.filter_cons_of_neg (by simpa using hk)]
        exact ih
      · rw [List.filter_cons_of_pos (by simpa using hk),
          List.filter_cons_of_neg (by simpa using hk)]
        exact ih
  rw [h1]
  simp

theorem Values.get_setAll_set_key (q m : Values) (k v : String) :
    (q.setAll (m.set k v)).get k = v := by
  rw [Values.get_setAll, Values.filter_set_key]
  rfl

/-- C10: `SearchAds` never mutates its caller's parameter map — after
any run, the heap cell the caller's reference points to is unchanged —
even though it injects the default batch size 100 into its working
copy when the caller set no page-size hint (visible on the first
issued request) and clears the working map when following a
continuation. -/
theorem SearchAds_preserves_caller_params :
    ∀ (srv : List HTTPResult) (token : String) (h : Heap) (paramsRef : Nat) (limit : Int),
      paramsRef < h.length →
      (SearchAds srv token h paramsRef limit).heap[paramsRef]? = h[paramsRef]? ∧
      ((h.read paramsRef).get "limit" = "" →
        ∃ req, (SearchAds srv token h paramsRef limit).requests.head? = some req ∧
          req.query.get "limit" = "100") := by
  intro srv token h paramsRef limit hlt
  simp only [SearchAds]
  rw [Heap.read_alloc]
  by_cases hlim : (h.read paramsRef).get "limit" = ""
  · rw [if_pos hlim]
    constructor
    · obtain ⟨t, ht⟩ := searchAdsLoop_heap_extends srv
        (((h.alloc (h.read paramsRef)).1).write ((h.alloc (h.read paramsRef)).2)
          ((h.read paramsRef).set "limit" "100"))
        ((h.alloc (h.read paramsRef)).2) (.relative adLibPath) token limit []
      rw [ht]
      simp only [Heap.write, Heap.alloc]
      rw [List.getElem?_append_left (by simp; omega),
        List.getElem?_set_ne (by omega : h.length ≠ paramsRef),
        List.getElem?_append_left hlt]
    · intro _
      refine ⟨buildURL (.relative adLibPath) (baseParams token)
        ((h.read paramsRef).set "limit" "100"), ?_, ?_⟩
      · rw [searchAdsLoop_requests_head]
        have hread : (((h.alloc (h.read paramsRef)).1).write ((h.alloc (h.read paramsRef)).2)
            ((h.read paramsRef).set "limit" "100")).read ((h.alloc (h.read paramsRef)).2) =
            (h.read paramsRef).set "limit" "100" := by
          simp only [Heap.write, Heap.alloc, Heap.read]
          rw [List.getD_eq_getElem?_getD, List.getElem?_set_self (by simp)]
          rfl
        rw [hread]
      · exact Values.get_setAll_set_key _ _ _ _
  · rw [if_neg hlim]
    refine ⟨?_, fun hcontra => absurd hcontra hlim⟩
    obtain ⟨t, ht⟩ := searchAdsLoop_heap_extends srv ((h.alloc (h.read paramsRef)).1)
      ((h.alloc (h.read paramsRef)).2) (.relative adLibPath) token limit []
    rw [ht]
    simp only [Heap.alloc]
    rw [List.getElem?_append_left (by simp; omega), List.getElem?_append_left hlt]

/-- Witness for C10: a caller map holding only `ad_type` is unchanged
after a one-page fetch, while the issued request carries the injected
default `limit=100`. -/
theorem SearchAds_preserves_caller_params_witness :
    (SearchAds [okLastPageResp ["x"]] "t" [[("ad_type", ["ALL"])]] 0 0).heap[0]? =
      some [("ad_type", ["ALL"])] ∧
    ∃ req, (SearchAds [okLastPageResp ["x"]] "t" [[("ad_type", ["ALL"])]] 0 0).requests.head? =
      some req ∧ req.query.get "limit" = "100" := by
  obtain ⟨h1, h2⟩ := SearchAds_preserves_caller_params [okLastPageResp ["x"]] "t"
    [[("ad_type", ["ALL"])]] 0 0 (by simp)
  refine ⟨?_, h2 rfl⟩
  rw [h1]
  rfl

end MetaAdsCli
